import Mathlib

/-!
Shallow embedding of the cluster layer of werbenhu/amqtt
(src/cluster/cluster.go and src/cluster/processor.go).

Connections are modelled as `Client` values carrying an object handle (so two
links with the same identity are still distinct objects), the registry
(`ifs.Server.Clusters()`, a Go `sync.Map`) as an association list with
map-store semantics, and every Go function as a pure Lean function returning
an updated state together with the list of observable side effects (frame
writes, connection closes, dial attempts).  Write failures are modelled by an
oracle `wr : Client → Packet → Bool` giving each `WritePacket` call's result;
the source discards that result at every call site embedded here except the
outbound-handshake write of `HandlerClient`, which aborts on failure.
-/

namespace Amqtt

/-- Connection role constants from the repository's config package:
`TypServer` marks a link accepted by our listener, `TypClient` one we dialed. -/
inductive ClientTyp where
  | TypServer
  | TypClient
deriving DecidableEq, Repr

/-- Static peer entry from `config.Clusters()` (`config.ClusterNode`). -/
structure ClusterNode where
  name : String
  host : String
deriving DecidableEq, Repr

/-- Fields of `packets.ConnectPacket` used by the cluster layer. -/
structure ConnectPacket where
  clientIdentifier : String
  cleanSession : Bool
  protocolName : String
  protocolVersion : Nat
  keepalive : Nat
deriving DecidableEq, Repr

/-- Fields of `packets.PublishPacket` used by the cluster layer. -/
structure PublishPacket where
  topicName : String
  retain : Bool
  payload : String
deriving DecidableEq, Repr

/-- Control packets exchanged on cluster links (the external wire protocol's
control-frame kinds, packets package). -/
inductive Packet where
  | connect (cp : ConnectPacket)
  | connack (sessionPresent : Bool) (returnCode : Nat)
  | publish (pp : PublishPacket)
  | subscribe (topics : List String) (qoss : List Nat) (messageID : Nat)
  | suback (messageID : Nat)
  | unsubscribe (topics : List String) (messageID : Nat)
  | unsuback (messageID : Nat)
  | pingreq
  | pingresp
  | disconnect
deriving DecidableEq, Repr

/-- Modelled from the spec: the per-connection transport wrapper (`Client` of
client.go, which is not among the given sources) per §6 carries an identity
(`setIdentity`/`getIdentity`), a role (`getRole`), and a mutable topic set.
`handle` is the object identity distinguishing two wrapper objects that carry
the same identity string. -/
structure Client where
  handle : Nat
  id : String
  typ : ClientTyp
  topics : List String
deriving DecidableEq, Repr

/-- Observable side effects of the cluster layer: a frame written on a link
(`ok` records the transport's success result for that write), a connection
close, and a dial attempt spawned towards a configured peer. -/
inductive Effect where
  | write (target : Client) (p : Packet) (ok : Bool)
  | close (target : Client)
  | dial (node : ClusterNode)
deriving DecidableEq, Repr

/-- Modelled from Go's `sync.Map.Load`: look a key up in an association list. -/
def mapLoad {α : Type} (m : List (String × α)) (k : String) : Option α :=
  (m.find? fun e => decide (e.1 = k)).map Prod.snd

/-- Modelled from Go's `sync.Map.Delete`: drop every entry stored under `k`. -/
def mapDelete {α : Type} (m : List (String × α)) (k : String) : List (String × α) :=
  m.filter fun e => decide (e.1 ≠ k)

/-- Modelled from Go's `sync.Map.Store`: after the call the map holds exactly
one entry under `k`, namely `v`; all other keys are untouched. -/
def mapStore {α : Type} (m : List (String × α)) (k : String) (v : α) : List (String × α) :=
  mapDelete m k ++ [(k, v)]

/-- Number of entries an association list holds under key `k`. -/
def countKey {α : Type} (m : List (String × α)) (k : String) : Nat :=
  (m.filter fun e => decide (e.1 = k)).length

/-- The shared broker state the cluster layer reads and writes
(`ifs.Server`): the cluster registry, the local topic store's subscriber
mapping and topic enumeration, the retained-message store, the
cluster-subscription registry, and the process-wide sent counter. -/
structure ServerState where
  clusters : List (String × Client)
  brokerSubs : List (String × List Client)
  brokerTopicsList : List String
  retained : List (String × PublishPacket)
  clusterTopics : List (String × String)
  pubSent : Int
deriving DecidableEq, Repr

/-- Modelled from the spec: `subscribersOf(topic)` of the local topic store
(§6) returns the sequence of local subscriber handles of the topic. -/
def Subscribers (m : List (String × List Client)) (topic : String) : List Client :=
  (mapLoad m topic).getD []

/-- Modelled from the spec: `removeRetained(topic)` of the retained store
(§3: mapping topic → last retained publication) deletes the topic's entry. -/
def RemoveRetain (retained : List (String × PublishPacket)) (topic : String) :
    List (String × PublishPacket) :=
  mapDelete retained topic

/-- Modelled from the spec: `unsubscribe(topic, id)` of the
cluster-subscription registry (§6) removes that subscriber entry. -/
def ctUnsubscribe (ct : List (String × String)) (topic subId : String) :
    List (String × String) :=
  ct.filter fun e => decide (¬(e.1 = topic ∧ e.2 = subId))

/-- Modelled from the spec: `removeTopic` of the transport wrapper (§6)
removes a topic from the connection's own topic set. -/
def RemoveTopic (c : Client) (topic : String) : Client :=
  { c with topics := c.topics.filter fun x => decide (x ≠ topic) }

/-- Modelled from Go's `strings.TrimSpace`: drop leading and trailing
whitespace (used on peer names before registry lookups). -/
def trimSpace (s : String) : String :=
  String.mk ((s.data.dropWhile Char.isWhitespace).reverse.dropWhile Char.isWhitespace).reverse

/-- The dedup loop of `Processor.DoPublish` (processor.go lines 25-34):
walk the subscriber list, skip subscribers whose identity was already served
(the `history` map), otherwise write the frame and bump the counter by one.
Returns the write effects in source order and the counter increment. -/
def DoPublishLoop (wr : Client → Packet → Bool) (pkt : PublishPacket) :
    List Client → List String → List Effect × Nat
  | [], _ => ([], 0)
  | sub :: rest, history =>
    if sub.id ∈ history then
      DoPublishLoop wr pkt rest history
    else
      let r := DoPublishLoop wr pkt rest (sub.id :: history)
      (Effect.write sub (Packet.publish pkt) (wr sub (Packet.publish pkt)) :: r.1, r.2 + 1)

/-- `Processor.DoPublish`: fan a publish frame out to the given local
subscriber list, de-duplicated by subscriber identity, starting from an
empty history. -/
def DoPublish (wr : Client → Packet → Bool) (pkt : PublishPacket) (subs : List Client) :
    List Effect × Nat :=
  DoPublishLoop wr pkt subs []

/-- `Processor.ProcessPublish`: fan out via `DoPublish` on the topic's local
subscribers, add the counter increment to `pubSent`, and when the frame's
retain flag is set delete this node's retained entry for the topic. -/
def ProcessPublish (wr : Client → Packet → Bool) (st : ServerState)
    (pkt : PublishPacket) : ServerState × List Effect :=
  let subs := Subscribers st.brokerSubs pkt.topicName
  let r := DoPublish wr pkt subs
  let st1 := { st with pubSent := st.pubSent + (r.2 : Int) }
  if pkt.retain then
    ({ st1 with retained := RemoveRetain st1.retained pkt.topicName }, r.1)
  else
    (st1, r.1)

/-- `Processor.ProcessConnect`: build a connack whose session-present flag is
the request's clean-session flag and whose return code is
`cp.Validate()` (modelled by the parameter `validate`, the packets package
being external), write it to the client, and change nothing else. -/
def ProcessConnect (wr : Client → Packet → Bool) (validate : ConnectPacket → Nat)
    (st : ServerState) (client : Client) (cp : ConnectPacket) :
    ServerState × List Effect :=
  let ack := Packet.connack cp.cleanSession (validate cp)
  (st, [Effect.write client ack (wr client ack)])

/-- The topic-cleanup loop of `Processor.ProcessDisconnect` (processor.go
lines 92-96): for each topic of the client's topic set, remove it from the
client's own set and unsubscribe the client's identity from the
cluster-subscription registry. -/
def disconnectLoop : List String → List (String × String) → Client →
    List (String × String) × Client
  | [], ct, c => (ct, c)
  | t :: rest, ct, c => disconnectLoop rest (ctUnsubscribe ct t c.id) (RemoveTopic c t)

/-- `Processor.ProcessDisconnect`: delete the registry entry stored under the
client's identity, close the client, then run the topic-cleanup loop over the
client's topic set. -/
def ProcessDisconnect (st : ServerState) (client : Client) :
    ServerState × Client × List Effect :=
  let reg := mapDelete st.clusters client.id
  let r := disconnectLoop client.topics st.clusterTopics client
  ({ st with clusters := reg, clusterTopics := r.1 }, r.2, [Effect.close client])

/-- `Cluster.syncNodeTopics`: look the trimmed peer name up in the registry;
when a link is present, write one subscribe frame per topic of the local
topic store over it, each carrying the single topic and QoS 0. -/
def syncNodeTopics (wr : Client → Packet → Bool) (reg : List (String × Client))
    (topicsList : List String) (cluster : ClusterNode) : List Effect :=
  match mapLoad reg (trimSpace cluster.name) with
  | some c =>
    topicsList.map fun t =>
      let subpack := Packet.subscribe [t] [0] 0
      Effect.write c subpack (wr c subpack)
  | none => []

/-- `Cluster.SyncTopics`: run `syncNodeTopics` for every configured peer
entry whose name equals the given identity, and wait for all of them (the
`sync.WaitGroup`); sequentially, the returned effect list is the
concatenation of all the per-entry sends, complete when the call returns. -/
def SyncTopics (wr : Client → Packet → Bool) (cfg : List ClusterNode)
    (reg : List (String × Client)) (topicsList : List String) (clientId : String) :
    List Effect :=
  (cfg.filter fun cluster => decide (clientId = cluster.name)).flatMap
    (syncNodeTopics wr reg topicsList)

/-- One configured peer's case split of `Cluster.CheckHealthy` (cluster.go
lines 218-230): no registry entry under the trimmed name spawns a dial; an
entry of type `TypClient` gets one pingreq written; otherwise nothing. -/
def checkHealthyNode (wr : Client → Packet → Bool) (reg : List (String × Client))
    (cluster : ClusterNode) : List Effect :=
  match mapLoad reg (trimSpace cluster.name) with
  | none => [Effect.dial cluster]
  | some c =>
    if c.typ = ClientTyp.TypClient then
      [Effect.write c Packet.pingreq (wr c Packet.pingreq)]
    else []

/-- `Cluster.CheckHealthy`: the per-peer case split over the whole configured
peer list. -/
def CheckHealthy (wr : Client → Packet → Bool) (cfg : List ClusterNode)
    (reg : List (String × Client)) : List Effect :=
  cfg.flatMap (checkHealthyNode wr reg)

/-- Result of the single blocking `ReadPacket` call of `HandlerServer`. -/
inductive ReadResult where
  | err
  | pkt (p : Packet)
deriving DecidableEq, Repr

/-- `Cluster.HandlerServer`: wrap the accepted connection as a fresh
`TypServer` client (object handle `h`), read one frame; on a read error or a
non-connect frame return with no state change and no effect (the source
neither closes nor registers the connection on those paths).  On a connect
frame: bind the identity, close any displaced registry entry, answer via
`ProcessConnect`, store the new client, and run `SyncTopics` for the
identity.  The subsequent blocking read loop is outside this model. -/
def HandlerServer (wr : Client → Packet → Bool) (validate : ConnectPacket → Nat)
    (cfg : List ClusterNode) (st : ServerState) (h : Nat) (firstRead : ReadResult) :
    ServerState × List Effect :=
  match firstRead with
  | .err => (st, [])
  | .pkt p =>
    match p with
    | .connect cp =>
      let client : Client :=
        { handle := h, id := cp.clientIdentifier, typ := .TypServer, topics := [] }
      let clientId := cp.clientIdentifier
      let closeEs :=
        match mapLoad st.clusters clientId with
        | some old => [Effect.close old]
        | none => []
      let r := ProcessConnect wr validate st client cp
      let st2 := { r.1 with clusters := mapStore r.1.clusters clientId client }
      let syncEs := SyncTopics wr cfg st2.clusters st2.brokerTopicsList clientId
      (st2, closeEs ++ r.2 ++ syncEs)
    | _ => (st, [])

/-- `Cluster.HandlerClient`: wrap the dialed connection as a fresh
`TypClient` client under the configured peer's name, write the synthesized
connect frame carrying this node's own name (`ownName`); on write failure
return with no registration.  On success: close any displaced registry entry,
store the new client, and run `SyncTopics` for the peer's name.  The
subsequent blocking read loop is outside this model. -/
def HandlerClient (wr : Client → Packet → Bool) (cfg : List ClusterNode)
    (ownName : String) (st : ServerState) (h : Nat) (cluster : ClusterNode) :
    ServerState × List Effect :=
  let connectPkt : Packet := Packet.connect
    { clientIdentifier := ownName, cleanSession := true, protocolName := "MQTT",
      protocolVersion := 4, keepalive := 60 }
  let client : Client := { handle := h, id := cluster.name, typ := .TypClient, topics := [] }
  if wr client connectPkt then
    let closeEs :=
      match mapLoad st.clusters cluster.name with
      | some old => [Effect.close old]
      | none => []
    let st1 := { st with clusters := mapStore st.clusters cluster.name client }
    let syncEs := SyncTopics wr cfg st1.clusters st1.brokerTopicsList cluster.name
    (st1, Effect.write client connectPkt true :: (closeEs ++ syncEs))
  else
    (st, [Effect.write client connectPkt false])

/-- `true` iff the effect is a frame write on a link whose identity is `i`. -/
def isWriteTo (e : Effect) (i : String) : Bool :=
  match e with
  | .write c _ _ => decide (c.id = i)
  | _ => false

/-- Number of frame writes an effect list performs on links of identity `i`. -/
def writesTo (es : List Effect) (i : String) : Nat :=
  (es.filter (isWriteTo · i)).length

/-- `true` iff the effect is a write of the given publish frame. -/
def isPubOf (e : Effect) (pkt : PublishPacket) : Bool :=
  match e with
  | .write _ (Packet.publish pp) _ => decide (pp = pkt)
  | _ => false

/-- `true` iff the effect is a write, on link `c`, of a subscribe frame
carrying exactly the topic `t` at QoS 0. -/
def isSubTo (e : Effect) (c : Client) (t : String) : Bool :=
  match e with
  | .write c2 (Packet.subscribe ts qs _) _ => decide (c2 = c ∧ ts = [t] ∧ qs = [0])
  | _ => false

/-! ### Lemmas about the registry model -/

theorem find?_mapDelete_self {α : Type} (m : List (String × α)) (k : String) :
    (mapDelete m k).find? (fun e => decide (e.1 = k)) = none := by
  rw [List.find?_eq_none]
  intro x hx
  simp only [mapDelete, List.mem_filter, decide_eq_true_eq] at hx
  simp [hx.2]

theorem mapLoad_mapDelete_self {α : Type} (m : List (String × α)) (k : String) :
    mapLoad (mapDelete m k) k = none := by
  simp [mapLoad, find?_mapDelete_self]

theorem mapLoad_mapStore_self {α : Type} (m : List (String × α)) (k : String) (v : α) :
    mapLoad (mapStore m k v) k = some v := by
  rw [mapStore, mapLoad, List.find?_append, find?_mapDelete_self]
  simp

theorem countKey_mapStore_self {α : Type} (m : List (String × α)) (k : String) (v : α) :
    countKey (mapStore m k v) k = 1 := by
  rw [countKey, mapStore, List.filter_append]
  have hnil : (mapDelete m k).filter (fun e => decide (e.1 = k)) = [] := by
    rw [List.filter_eq_nil_iff]
    intro a ha
    simp only [mapDelete, List.mem_filter, decide_eq_true_eq] at ha
    simp [ha.2]
  rw [hnil]
  simp

/-! ### Lemmas about the publish fan-out loop -/

theorem writesTo_cons (e : Effect) (es : List Effect) (i : String) :
    writesTo (e :: es) i = (if isWriteTo e i then 1 else 0) + writesTo es i := by
  rw [writesTo, List.filter_cons]
  split <;> simp [writesTo, Nat.add_comm]

theorem DoPublishLoop_writesTo (wr : Client → Packet → Bool) (pkt : PublishPacket)
    (subs : List Client) (i : String) :
    ∀ history : List String,
      writesTo (DoPublishLoop wr pkt subs history).1 i =
        if i ∈ history then 0 else if i ∈ subs.map Client.id then 1 else 0 := by
  induction subs with
  | nil =>
    intro history
    simp [DoPublishLoop, writesTo]
  | cons sub rest ih =>
    intro history
    rw [DoPublishLoop]
    by_cases hmem : sub.id ∈ history
    · rw [if_pos hmem, ih history]
      by_cases hi : i ∈ history
      · simp [hi]
      · have hne : ¬(i = sub.id) := fun h => hi (h ▸ hmem)
        simp [hi, List.mem_cons, hne]
    · rw [if_neg hmem]
      simp only
      rw [writesTo_cons, ih (sub.id :: history)]
      by_cases hid : sub.id = i
      · subst hid
        simp [isWriteTo, hmem, List.mem_cons]
      · have hne : ¬(i = sub.id) := fun h => hid h.symm
        simp only [isWriteTo, decide_eq_true_eq, if_neg hid, Nat.zero_add,
          List.mem_cons, hne, false_or]
        by_cases hi : i ∈ history <;> simp [hi, hne]

theorem DoPublishLoop_count (wr : Client → Packet → Bool) (pkt : PublishPacket)
    (subs : List Client) :
    ∀ history : List String,
      (DoPublishLoop wr pkt subs history).2 =
        ((subs.map Client.id).toFinset \ history.toFinset).card := by
  induction subs with
  | nil =>
    intro history
    simp [DoPublishLoop]
  | cons sub rest ih =>
    intro history
    rw [DoPublishLoop]
    by_cases hmem : sub.id ∈ history
    · rw [if_pos hmem, ih history]
      rw [List.map_cons, List.toFinset_cons,
        Finset.insert_sdiff_of_mem _ (List.mem_toFinset.mpr hmem)]
    · rw [if_neg hmem]
      simp only
      rw [ih (sub.id :: history)]
      have hset : (sub.id :: rest.map Client.id).toFinset \ history.toFinset =
          insert sub.id ((rest.map Client.id).toFinset \ (sub.id :: history).toFinset) := by
        ext x
        simp only [List.toFinset_cons, Finset.mem_sdiff, Finset.mem_insert,
          List.mem_toFinset, List.mem_cons, not_or]
        constructor
        · rintro ⟨hx1 | hx2, hx3⟩
          · exact Or.inl hx1
          · by_cases hxs : x = sub.id
            · exact Or.inl hxs
            · exact Or.inr ⟨hx2, hxs, hx3⟩
        · rintro (rfl | ⟨hx1, _, hx3⟩)
          · exact ⟨Or.inl rfl, hmem⟩
          · exact ⟨Or.inr hx1, hx3⟩
      rw [List.map_cons, hset,
        Finset.card_insert_of_not_mem (by simp [List.mem_cons])]

theorem DoPublishLoop_length (wr : Client → Packet → Bool) (pkt : PublishPacket)
    (subs : List Client) :
    ∀ history : List String,
      (DoPublishLoop wr pkt subs history).1.length = (DoPublishLoop wr pkt subs history).2 := by
  induction subs with
  | nil => intro history; rfl
  | cons sub rest ih =>
    intro history
    rw [DoPublishLoop]
    by_cases hmem : sub.id ∈ history
    · rw [if_pos hmem]; exact ih history
    · rw [if_neg hmem]
      simp only [List.length_cons]
      rw [ih (sub.id :: history)]

theorem DoPublishLoop_allPub (wr : Client → Packet → Bool) (pkt : PublishPacket)
    (subs : List Client) :
    ∀ history : List String,
      (DoPublishLoop wr pkt subs history).1.all (isPubOf · pkt) = true := by
  induction subs with
  | nil => intro history; rfl
  | cons sub rest ih =>
    intro history
    rw [DoPublishLoop]
    by_cases hmem : sub.id ∈ history
    · rw [if_pos hmem]; exact ih history
    · rw [if_neg hmem]
      simp only [List.all_cons, ih (sub.id :: history), Bool.and_true]
      simp [isPubOf]

/-! ### Claim C2 and C10: publish fan-out -/

/-- C2: for every topic and every local subscriber list of that topic
(duplicate identities allowed), processing one publish writes the frame
exactly once to each unique subscriber identity (and writes nothing but that
frame), and the process-wide sent counter grows by exactly the number of
unique identities. -/
theorem publish_fanout_unique (wr : Client → Packet → Bool) (st : ServerState)
    (pkt : PublishPacket) (i : String)
    (hi : i ∈ (Subscribers st.brokerSubs pkt.topicName).map Client.id) :
    writesTo (ProcessPublish wr st pkt).2 i = 1 ∧
    (ProcessPublish wr st pkt).2.all (isPubOf · pkt) = true ∧
    (ProcessPublish wr st pkt).1.pubSent =
      st.pubSent +
        (((Subscribers st.brokerSubs pkt.topicName).map Client.id).toFinset.card : Int) := by
  have heff : (ProcessPublish wr st pkt).2 =
      (DoPublish wr pkt (Subscribers st.brokerSubs pkt.topicName)).1 := by
    rw [ProcessPublish]
    split <;> rfl
  have hsent : (ProcessPublish wr st pkt).1.pubSent =
      st.pubSent + ((DoPublish wr pkt (Subscribers st.brokerSubs pkt.topicName)).2 : Int) := by
    rw [ProcessPublish]
    split <;> rfl
  refine ⟨?_, ?_, ?_⟩
  · rw [heff, DoPublish, DoPublishLoop_writesTo]
    simp [hi]
  · rw [heff, DoPublish]
    exact DoPublishLoop_allPub wr pkt _ []
  · rw [hsent, DoPublish, DoPublishLoop_count]
    simp

/-- Demonstration state for the publish fan-out: topic "t" has three local
subscriber entries, two of which share the identity "a". -/
def demoSubsState : ServerState :=
  { clusters := [],
    brokerSubs := [("t",
      [{ handle := 0, id := "a", typ := .TypServer, topics := [] },
       { handle := 1, id := "b", typ := .TypServer, topics := [] },
       { handle := 2, id := "a", typ := .TypServer, topics := [] }])],
    brokerTopicsList := [], retained := [], clusterTopics := [], pubSent := 0 }

/-- Demonstration publish frame for topic "t". -/
def demoPub : PublishPacket := { topicName := "t", retain := false, payload := "m" }

/-- Witness for C2 at a concrete subscriber list with a duplicated identity. -/
theorem publish_fanout_unique_witness :
    ("a" ∈ (Subscribers demoSubsState.brokerSubs demoPub.topicName).map Client.id) ∧
    (writesTo (ProcessPublish (fun _ _ => true) demoSubsState demoPub).2 "a" = 1 ∧
     (ProcessPublish (fun _ _ => true) demoSubsState demoPub).2.all (isPubOf · demoPub) = true ∧
     (ProcessPublish (fun _ _ => true) demoSubsState demoPub).1.pubSent =
       demoSubsState.pubSent +
         (((Subscribers demoSubsState.brokerSubs demoPub.topicName).map
             Client.id).toFinset.card : Int)) :=
  ⟨by decide, publish_fanout_unique (fun _ _ => true) demoSubsState demoPub "a" (by decide)⟩

/-- C10: the sent counter of the publish fan-out counts send attempts, not
successful deliveries: its increment is invariant under the write-success
oracle, equals the number of unique subscriber identities, equals the number
of write attempts emitted, and the per-identity attempt counts are likewise
oracle-invariant. -/
theorem sent_counter_counts_attempts (wr wr2 : Client → Packet → Bool)
    (pkt : PublishPacket) (subs : List Client) :
    (DoPublish wr pkt subs).2 = (DoPublish wr2 pkt subs).2 ∧
    (DoPublish wr pkt subs).2 = (subs.map Client.id).toFinset.card ∧
    (DoPublish wr pkt subs).1.length = (DoPublish wr pkt subs).2 ∧
    ∀ i : String, writesTo (DoPublish wr pkt subs).1 i =
      writesTo (DoPublish wr2 pkt subs).1 i := by
  refine ⟨?_, ?_, ?_, ?_⟩
  · rw [DoPublish, DoPublish, DoPublishLoop_count, DoPublishLoop_count]
  · rw [DoPublish, DoPublishLoop_count]
    simp
  · rw [DoPublish]
    exact DoPublishLoop_length wr pkt subs []
  · intro i
    rw [DoPublish, DoPublish, DoPublishLoop_writesTo, DoPublishLoop_writesTo]

/-! ### Lemmas about the disconnect cleanup loop -/

theorem disconnectLoop_fst (l : List String) :
    ∀ (ct : List (String × String)) (c : Client),
      (disconnectLoop l ct c).1 =
        ct.filter (fun e => decide (¬(e.1 ∈ l ∧ e.2 = c.id))) := by
  induction l with
  | nil =>
    intro ct c
    simp [disconnectLoop]
  | cons t rest ih =>
    intro ct c
    rw [disconnectLoop, ih]
    rw [ctUnsubscribe, List.filter_filter]
    apply List.filter_congr
    intro e _
    rw [show (RemoveTopic c t).id = c.id from rfl, ← Bool.decide_and, decide_eq_decide]
    simp only [List.mem_cons, not_and, not_or]
    tauto

theorem disconnectLoop_snd_topics (l : List String) :
    ∀ (ct : List (String × String)) (c : Client),
      (disconnectLoop l ct c).2.topics =
        c.topics.filter (fun x => decide (¬ x ∈ l)) := by
  induction l with
  | nil =>
    intro ct c
    simp [disconnectLoop]
  | cons t rest ih =>
    intro ct c
    rw [disconnectLoop, ih]
    show (c.topics.filter (fun x => decide (x ≠ t))).filter
        (fun x => decide (¬ x ∈ rest)) = _
    rw [List.filter_filter]
    apply List.filter_congr
    intro x _
    rw [← Bool.decide_and, decide_eq_decide]
    simp only [List.mem_cons, not_or, ne_eq]
    tauto

/-! ### Claims C6, C7, C8, C9: the message processor -/

/-- C6: processing a publish frame fans it out to the topic's local
subscribers and, exactly when the retain flag is set, deletes this node's
retained entry for the frame's topic, so the retained store holds no entry
for that topic afterwards; with the flag clear the retained store is
untouched. -/
theorem publish_retain_removed (wr : Client → Packet → Bool) (st : ServerState)
    (pkt : PublishPacket) :
    (ProcessPublish wr st pkt).1.retained =
      (if pkt.retain then RemoveRetain st.retained pkt.topicName else st.retained) ∧
    mapLoad (ProcessPublish wr st pkt).1.retained pkt.topicName =
      (if pkt.retain then none else mapLoad st.retained pkt.topicName) ∧
    (ProcessPublish wr st pkt).2 =
      (DoPublish wr pkt (Subscribers st.brokerSubs pkt.topicName)).1 := by
  have h1 : (ProcessPublish wr st pkt).1.retained =
      (if pkt.retain then RemoveRetain st.retained pkt.topicName else st.retained) := by
    rw [ProcessPublish]
    cases hb : pkt.retain <;> simp [hb]
  refine ⟨h1, ?_, ?_⟩
  · rw [h1]
    cases hb : pkt.retain <;> simp [hb, RemoveRetain, mapLoad_mapDelete_self]
  · rw [ProcessPublish]
    split <;> rfl

/-- C7: disconnect processing removes the registry entry stored under the
client's identity, closes the connection, leaves the client's own topic set
empty, and removes from the cluster-subscription registry exactly the entries
pairing one of the client's topics with the client's identity. -/
theorem disconnect_cleanup (st : ServerState) (c : Client) :
    mapLoad (ProcessDisconnect st c).1.clusters c.id = none ∧
    (ProcessDisconnect st c).2.1.topics = [] ∧
    (ProcessDisconnect st c).1.clusterTopics =
      st.clusterTopics.filter (fun e => decide (¬(e.1 ∈ c.topics ∧ e.2 = c.id))) ∧
    (ProcessDisconnect st c).2.2 = [Effect.close c] := by
  refine ⟨mapLoad_mapDelete_self _ _, ?_, ?_, rfl⟩
  · rw [show (ProcessDisconnect st c).2.1.topics =
      (disconnectLoop c.topics st.clusterTopics c).2.topics from rfl,
      disconnectLoop_snd_topics]
    rw [List.filter_eq_nil_iff.mpr]
    intro a ha
    simp [ha]
  · rw [show (ProcessDisconnect st c).1.clusterTopics =
      (disconnectLoop c.topics st.clusterTopics c).1 from rfl, disconnectLoop_fst]

/-- C8: the connect handler replies with exactly one acknowledgment frame,
whose session-present flag is the request's clean-session flag and whose
return code is the result of validating the request, and mutates no broker
state at all. -/
theorem connect_ack_only (wr : Client → Packet → Bool) (validate : ConnectPacket → Nat)
    (st : ServerState) (client : Client) (cp : ConnectPacket) :
    (ProcessConnect wr validate st client cp).1 = st ∧
    (ProcessConnect wr validate st client cp).2 =
      [Effect.write client (Packet.connack cp.cleanSession (validate cp))
        (wr client (Packet.connack cp.cleanSession (validate cp)))] :=
  ⟨rfl, rfl⟩

/-- C9: disconnect processing deletes whatever the registry currently stores
under the disconnecting client's identity — even a different, newer client
object — while closing only the disconnecting client itself. -/
theorem disconnect_deletes_current_entry (st : ServerState) (c newC : Client)
    (h : mapLoad st.clusters c.id = some newC) :
    mapLoad (ProcessDisconnect st c).1.clusters c.id = none ∧
    (ProcessDisconnect st c).2.2 = [Effect.close c] ∧
    (newC ≠ c → Effect.close newC ∉ (ProcessDisconnect st c).2.2) := by
  refine ⟨mapLoad_mapDelete_self _ _, rfl, ?_⟩
  intro hne hmem
  rw [show (ProcessDisconnect st c).2.2 = [Effect.close c] from rfl] at hmem
  simp only [List.mem_singleton, Effect.close.injEq] at hmem
  exact hne hmem

/-- Witness for C9: the registry holds a newer client (handle 2) under the
identity "n"; disconnect cleanup for the displaced older client (handle 1)
still deletes that entry, and the newer client is not closed. -/
theorem disconnect_deletes_current_entry_witness :
    mapLoad (⟨[("n", ⟨2, "n", .TypServer, []⟩)], [], [], [], [], 0⟩ : ServerState).clusters
        (⟨1, "n", .TypServer, ([] : List String)⟩ : Client).id =
      some ⟨2, "n", .TypServer, []⟩ ∧
    mapLoad (ProcessDisconnect ⟨[("n", ⟨2, "n", .TypServer, []⟩)], [], [], [], [], 0⟩
        ⟨1, "n", .TypServer, []⟩).1.clusters "n" = none ∧
    (ProcessDisconnect ⟨[("n", ⟨2, "n", .TypServer, []⟩)], [], [], [], [], 0⟩
        ⟨1, "n", .TypServer, []⟩).2.2 = [Effect.close ⟨1, "n", .TypServer, []⟩] ∧
    Effect.close ⟨2, "n", .TypServer, []⟩ ∉
      (ProcessDisconnect ⟨[("n", ⟨2, "n", .TypServer, []⟩)], [], [], [], [], 0⟩
        ⟨1, "n", .TypServer, []⟩).2.2 := by
  have t := disconnect_deletes_current_entry
    ⟨[("n", ⟨2, "n", .TypServer, []⟩)], [], [], [], [], 0⟩
    ⟨1, "n", .TypServer, []⟩ ⟨2, "n", .TypServer, []⟩ (by decide)
  exact ⟨by decide, t.1, t.2.1, t.2.2 (by decide)⟩

/-! ### Claim C1: registration displaces the old link -/

/-- C1: registering a new link under an identity that already has a registry
entry — on the accepted path (`HandlerServer`) and on the dialed path
(`HandlerClient`) alike — closes the superseded link and stores the new one,
so the registry afterwards holds exactly one entry under that identity,
namely the new link. -/
theorem registration_displaces_old (wr : Client → Packet → Bool)
    (validate : ConnectPacket → Nat) (cfg : List ClusterNode) (st : ServerState)
    (h hc : Nat) (cp : ConnectPacket) (node : ClusterNode) (ownName : String)
    (old1 old2 : Client)
    (hwr : ∀ c p, wr c p = true)
    (h1 : mapLoad st.clusters cp.clientIdentifier = some old1)
    (h2 : mapLoad st.clusters node.name = some old2) :
    (Effect.close old1 ∈ (HandlerServer wr validate cfg st h (.pkt (.connect cp))).2 ∧
     mapLoad (HandlerServer wr validate cfg st h (.pkt (.connect cp))).1.clusters
         cp.clientIdentifier =
       some { handle := h, id := cp.clientIdentifier, typ := .TypServer, topics := [] } ∧
     countKey (HandlerServer wr validate cfg st h (.pkt (.connect cp))).1.clusters
       cp.clientIdentifier = 1) ∧
    (Effect.close old2 ∈ (HandlerClient wr cfg ownName st hc node).2 ∧
     mapLoad (HandlerClient wr cfg ownName st hc node).1.clusters node.name =
       some { handle := hc, id := node.name, typ := .TypClient, topics := [] } ∧
     countKey (HandlerClient wr cfg ownName st hc node).1.clusters node.name = 1) := by
  constructor
  · have heff : (HandlerServer wr validate cfg st h (.pkt (.connect cp))).2 =
        (match mapLoad st.clusters cp.clientIdentifier with
          | some old => [Effect.close old]
          | none => []) ++
        (ProcessConnect wr validate st
          { handle := h, id := cp.clientIdentifier, typ := .TypServer, topics := [] } cp).2 ++
        SyncTopics wr cfg
          (mapStore st.clusters cp.clientIdentifier
            { handle := h, id := cp.clientIdentifier, typ := .TypServer, topics := [] })
          st.brokerTopicsList cp.clientIdentifier := rfl
    have hclus : (HandlerServer wr validate cfg st h (.pkt (.connect cp))).1.clusters =
        mapStore st.clusters cp.clientIdentifier
          { handle := h, id := cp.clientIdentifier, typ := .TypServer, topics := [] } := rfl
    refine ⟨?_, ?_, ?_⟩
    · rw [heff, h1]
      simp
    · rw [hclus, mapLoad_mapStore_self]
    · rw [hclus, countKey_mapStore_self]
  · refine ⟨?_, ?_, ?_⟩
    · simp only [HandlerClient, hwr, if_true]
      rw [h2]
      simp
    · simp only [HandlerClient, hwr, if_true]
      exact mapLoad_mapStore_self _ _ _
    · simp only [HandlerClient, hwr, if_true]
      exact countKey_mapStore_self _ _ _

/-- Witness for C1 at a concrete state whose registry already holds a link
under the identity being registered, on both paths. -/
theorem registration_displaces_old_witness :
    (mapLoad (⟨[("n", ⟨9, "n", .TypServer, []⟩)], [], [], [], [], 0⟩ : ServerState).clusters
        "n" = some ⟨9, "n", .TypServer, []⟩) ∧
    Effect.close ⟨9, "n", .TypServer, []⟩ ∈
      (HandlerServer (fun _ _ => true) (fun _ => 0) []
        ⟨[("n", ⟨9, "n", .TypServer, []⟩)], [], [], [], [], 0⟩ 1
        (.pkt (.connect ⟨"n", true, "MQTT", 4, 60⟩))).2 ∧
    countKey (HandlerServer (fun _ _ => true) (fun _ => 0) []
        ⟨[("n", ⟨9, "n", .TypServer, []⟩)], [], [], [], [], 0⟩ 1
        (.pkt (.connect ⟨"n", true, "MQTT", 4, 60⟩))).1.clusters "n" = 1 ∧
    Effect.close ⟨9, "n", .TypServer, []⟩ ∈
      (HandlerClient (fun _ _ => true) [] "me"
        ⟨[("n", ⟨9, "n", .TypServer, []⟩)], [], [], [], [], 0⟩ 2 ⟨"n", "h:1"⟩).2 ∧
    countKey (HandlerClient (fun _ _ => true) [] "me"
        ⟨[("n", ⟨9, "n", .TypServer, []⟩)], [], [], [], [], 0⟩ 2 ⟨"n", "h:1"⟩).1.clusters
      "n" = 1 := by
  have t := registration_displaces_old (fun _ _ => true) (fun _ => 0) []
    ⟨[("n", ⟨9, "n", .TypServer, []⟩)], [], [], [], [], 0⟩ 1 2
    ⟨"n", true, "MQTT", 4, 60⟩ ⟨"n", "h:1"⟩ "me"
    ⟨9, "n", .TypServer, []⟩ ⟨9, "n", .TypServer, []⟩
    (fun _ _ => rfl) (by decide) (by decide)
  exact ⟨by decide, t.1.1, t.1.2.2, t.2.1, t.2.2.2⟩

/-! ### Claim C3: the health-check pass -/

/-- C3: a health-check pass acts per configured peer: it spawns a dial when
the peer's trimmed name has no registry entry, writes a single ping frame on
the link when the entry's role is dialed (`TypClient`), and does nothing when
the role is accepted (`TypServer`); the whole pass is that case split over
the configured peer list. -/
theorem checkHealthy_cases (wr : Client → Packet → Bool) (cfg : List ClusterNode)
    (reg : List (String × Client)) (n : ClusterNode) (c : Client) :
    (mapLoad reg (trimSpace n.name) = none → checkHealthyNode wr reg n = [Effect.dial n]) ∧
    (mapLoad reg (trimSpace n.name) = some c → c.typ = ClientTyp.TypClient →
      checkHealthyNode wr reg n = [Effect.write c Packet.pingreq (wr c Packet.pingreq)]) ∧
    (mapLoad reg (trimSpace n.name) = some c → c.typ = ClientTyp.TypServer →
      checkHealthyNode wr reg n = []) ∧
    CheckHealthy wr cfg reg = cfg.flatMap (checkHealthyNode wr reg) := by
  refine ⟨?_, ?_, ?_, rfl⟩
  · intro hnone
    simp [checkHealthyNode, hnone]
  · intro hsome htyp
    simp [checkHealthyNode, hsome, htyp]
  · intro hsome htyp
    simp [checkHealthyNode, hsome, htyp]

/-- Witness for C3 on the spec's scenario: peer A connected with a dialed
link, peer B absent from the registry, peer C connected with an accepted
link. -/
theorem checkHealthy_cases_witness :
    checkHealthyNode (fun _ _ => true) [("B", ⟨0, "B", .TypClient, []⟩)] ⟨"A", "hA"⟩ =
      [Effect.dial ⟨"A", "hA"⟩] ∧
    checkHealthyNode (fun _ _ => true) [("A", ⟨1, "A", .TypClient, []⟩)] ⟨"A", "hA"⟩ =
      [Effect.write ⟨1, "A", .TypClient, []⟩ Packet.pingreq true] ∧
    checkHealthyNode (fun _ _ => true) [("C", ⟨2, "C", .TypServer, []⟩)] ⟨"C", "hC"⟩ = [] := by
  refine ⟨?_, ?_, ?_⟩
  · exact (checkHealthy_cases (fun _ _ => true) [] [("B", ⟨0, "B", .TypClient, []⟩)]
      ⟨"A", "hA"⟩ ⟨0, "B", .TypClient, []⟩).1 (by decide)
  · exact (checkHealthy_cases (fun _ _ => true) [] [("A", ⟨1, "A", .TypClient, []⟩)]
      ⟨"A", "hA"⟩ ⟨1, "A", .TypClient, []⟩).2.1 (by decide) rfl
  · exact (checkHealthy_cases (fun _ _ => true) [] [("C", ⟨2, "C", .TypServer, []⟩)]
      ⟨"C", "hC"⟩ ⟨2, "C", .TypServer, []⟩).2.2.1 (by decide) rfl

/-! ### Claim C4: non-connect first frame on an accepted connection -/

/-- C4, counterexample to the claim as stated: when the first frame read on
an accepted connection is not a connect frame (here a pingreq), the handler
emits no close of the connection at all — the connection is abandoned, not
closed, so "the connection is closed" fails at this concrete input. -/
theorem handlerServer_nonconnect_no_close :
    ¬ ∃ cc : Client, Effect.close cc ∈
      (HandlerServer (fun _ _ => true) (fun _ => 0) [] ⟨[], [], [], [], [], 0⟩ 5
        (ReadResult.pkt Packet.pingreq)).2 := by
  rintro ⟨cc, hcc⟩
  cases hcc

/-- C4 as amended: if the first frame read on an accepted inbound connection
is not a connect frame, the handler returns having registered nothing and
issued no effect at all — the registry (indeed the whole state) is unchanged,
and in particular no close of the connection is issued. -/
theorem handlerServer_nonconnect (wr : Client → Packet → Bool)
    (validate : ConnectPacket → Nat) (cfg : List ClusterNode) (st : ServerState)
    (h : Nat) (p : Packet) (hp : ∀ cp, p ≠ Packet.connect cp) :
    HandlerServer wr validate cfg st h (.pkt p) = (st, []) := by
  cases p <;> first
    | rfl
    | exact absurd rfl (hp _)

/-- Witness for the amended C4 at a concrete non-connect first frame. -/
theorem handlerServer_nonconnect_witness :
    HandlerServer (fun _ _ => true) (fun _ => 0) [] ⟨[], [], [], [], [], 0⟩ 5
      (ReadResult.pkt Packet.pingreq) = (⟨[], [], [], [], [], 0⟩, []) :=
  handlerServer_nonconnect _ _ _ _ _ _ (fun _ hcp => Packet.noConfusion hcp)

/-! ### Claim C5: topic synchronization -/

theorem length_filter_decide_eq (l : List String) (t : String) (hn : l.Nodup)
    (ht : t ∈ l) : (l.filter fun x => decide (x = t)).length = 1 := by
  induction l with
  | nil => cases ht
  | cons a l ih =>
    rw [List.nodup_cons] at hn
    rw [List.filter_cons]
    by_cases hat : a = t
    · subst hat
      have hnil : l.filter (fun x => decide (x = a)) = [] := by
        rw [List.filter_eq_nil_iff]
        intro b hb
        simp only [decide_eq_true_eq]
        rintro rfl
        exact hn.1 hb
      simp [hnil]
    · have htl : t ∈ l := by
        rcases List.mem_cons.mp ht with h | h
        · exact absurd h.symm hat
        · exact h
      simp only [decide_eq_true_eq, hat, if_false]
      exact ih hn.2 htl

/-- C5: for an identity with a live link, per-entry topic synchronization
sends exactly one QoS-0 subscribe frame per topic of the local topic store
over that link and nothing else, and the full routine is the concatenation
of those per-entry synchronizations over every configured peer entry whose
name equals the identity — all of them complete when it returns. -/
theorem syncTopics_one_per_topic (wr : Client → Packet → Bool) (cfg : List ClusterNode)
    (reg : List (String × Client)) (topicsList : List String) (clientId : String)
    (node : ClusterNode) (c : Client) (t : String)
    (h1 : mapLoad reg (trimSpace node.name) = some c)
    (h2 : topicsList.Nodup) (h3 : t ∈ topicsList) :
    syncNodeTopics wr reg topicsList node =
      topicsList.map (fun tp => Effect.write c (Packet.subscribe [tp] [0] 0)
        (wr c (Packet.subscribe [tp] [0] 0))) ∧
    ((syncNodeTopics wr reg topicsList node).filter (isSubTo · c t)).length = 1 ∧
    SyncTopics wr cfg reg topicsList clientId =
      (cfg.filter fun cluster => decide (clientId = cluster.name)).flatMap
        (syncNodeTopics wr reg topicsList) := by
  have hmap : syncNodeTopics wr reg topicsList node =
      topicsList.map (fun tp => Effect.write c (Packet.subscribe [tp] [0] 0)
        (wr c (Packet.subscribe [tp] [0] 0))) := by
    simp [syncNodeTopics, h1]
  refine ⟨hmap, ?_, rfl⟩
  rw [hmap, List.filter_map, List.length_map]
  rw [List.filter_congr (q := fun tp => decide (tp = t)) ?_]
  · exact length_filter_decide_eq topicsList t h2 h3
  · intro tp _
    simp [isSubTo, Function.comp]

/-- Witness for C5: one configured peer "n" with a live link and two local
topics; each topic is sent exactly once at QoS 0. -/
theorem syncTopics_one_per_topic_witness :
    (mapLoad [("n", (⟨3, "n", .TypClient, []⟩ : Client))] (trimSpace "n") =
      some ⟨3, "n", .TypClient, []⟩) ∧
    syncNodeTopics (fun _ _ => true) [("n", ⟨3, "n", .TypClient, []⟩)] ["t1", "t2"]
        ⟨"n", "h:1"⟩ =
      [Effect.write ⟨3, "n", .TypClient, []⟩ (Packet.subscribe ["t1"] [0] 0) true,
       Effect.write ⟨3, "n", .TypClient, []⟩ (Packet.subscribe ["t2"] [0] 0) true] ∧
    ((syncNodeTopics (fun _ _ => true) [("n", ⟨3, "n", .TypClient, []⟩)] ["t1", "t2"]
        ⟨"n", "h:1"⟩).filter (isSubTo · ⟨3, "n", .TypClient, []⟩ "t1")).length = 1 := by
  have t := syncTopics_one_per_topic (fun _ _ => true) [⟨"n", "h:1"⟩]
    [("n", ⟨3, "n", .TypClient, []⟩)] ["t1", "t2"] "n" ⟨"n", "h:1"⟩
    ⟨3, "n", .TypClient, []⟩ "t1" (by decide) (by decide) (by decide)
  exact ⟨by decide, t.1, t.2.1⟩

end Amqtt
